import Mathlib

/-!
Shallow embedding of the dependency-injection core of the repository
(`src/infrastructure/di/container.ts` and `src/infrastructure/di/types.ts`):
the `Container` class (registration, singleton/transient/scoped resolution),
the `ScopedContainerImpl` class (per-scope caching, disposal) and the
`depend` / `Injectable.inject` utility.

Modelling conventions:
- A JavaScript `Map<string, α>` is an insertion-ordered association list
  `List (String × α)`; `set` overwrites in place, iteration follows list order.
- A service factory (`definition.factory`, which in TS may return or throw)
  is modelled by its observable behaviour `Nat → Except E V`: the outcome of
  its n-th invocation (0-based).  The model instruments each container state
  with a per-key invocation counter (`calls`) so that "the factory is invoked
  n times" is a statable property.
- The thrown errors of container.ts (`Service ... not registered`,
  `Scoped service ... requires a request context`,
  `Container has been disposed`) become dedicated constructors of
  `ResolveError`; an error thrown by a factory is carried intact in the
  `factoryError` constructor, so "propagated unmodified" is the statement
  that the carried value equals the factory's error.
- `await` of a settled value in sequential code is the identity; the
  event-loop interleaving relevant to the singleton-creation race
  (container.ts lines 18-24) is modelled separately by a small-step
  two-task system (`RaceState` below) whose only suspension point is the
  `await definition.factory()` of line 20.
-/

namespace FPDI

/-- Lifecycle tag from types.ts line 17: `'singleton' | 'scoped' | 'transient'`. -/
inductive Lifecycle where
  | singleton
  | scoped
  | transient
deriving DecidableEq, Repr

/-- Request context from types.ts lines 26-30 (`startTime: Date` modelled as
a timestamp, `metadata` as a string-keyed association list). -/
structure RequestContext where
  requestId : String
  startTime : Nat
  metadata : List (String × String)
deriving DecidableEq, Repr

/-- JS `Map.get`: first entry with the key, if any. -/
def mapGet {α : Type} (m : List (String × α)) (k : String) : Option α :=
  (m.find? (fun p => p.1 = k)).map (fun p => p.2)

/-- JS `Map.set`: overwrite in place when the key is present, otherwise append
(insertion order, as a JS `Map`). -/
def mapSet {α : Type} (m : List (String × α)) (k : String) (v : α) :
    List (String × α) :=
  if m.any (fun p => p.1 = k) then
    m.map (fun p => if p.1 = k then (k, v) else p)
  else
    m ++ [(k, v)]

/-- Errors surfaced by `resolve` (container.ts lines 15, 32, 55, 60 and a
factory's own failure, carried unmodified). -/
inductive ResolveError (E : Type) where
  | serviceNotRegistered (key : String)
  | scopedRequiresContext (key : String)
  | containerDisposed
  | factoryError (e : E)
deriving DecidableEq, Repr

/-- Service definition from types.ts lines 20-24: a factory plus a lifecycle
tag.  The factory's behaviour at its n-th invocation is `factory n`. -/
structure ServiceDefinition (V E : Type) where
  factory : Nat → Except E V
  lifecycle : Lifecycle

/-- The state owned by a `Container` (container.ts lines 3-6): the service
registry and the singleton cache, plus the instrumentation counter recording
how many times each key's factory has been invoked. -/
structure CState (V E : Type) where
  services : List (String × ServiceDefinition V E)
  singletons : List (String × V)
  calls : List (String × Nat)

/-- Number of factory invocations recorded for `k`. -/
def countOf (m : List (String × Nat)) (k : String) : Nat :=
  (mapGet m k).getD 0

/-- Record one more factory invocation for `k`. -/
def bumpCalls (m : List (String × Nat)) (k : String) : List (String × Nat) :=
  mapSet m k (countOf m k + 1)

/-- State of `new Container()`: empty registry, empty singleton cache. -/
def emptyContainer (V E : Type) : CState V E :=
  { services := [], singletons := [], calls := [] }

/-- Registration, `Container.register` (container.ts lines 8-10): store/overwrite the
definition under `key`. -/
def register {V E : Type} (st : CState V E) (key : String)
    (d : ServiceDefinition V E) : CState V E :=
  { st with services := mapSet st.services key d }

/-- One invocation of `definition.factory()` for `key`: the behaviour at the
current invocation index, with the counter bumped. -/
def runFactory {V E : Type} (st : CState V E) (d : ServiceDefinition V E)
    (key : String) : Except E V × CState V E :=
  (d.factory (countOf st.calls key), { st with calls := bumpCalls st.calls key })

/-- Resolution, `Container.resolve` (container.ts lines 12-36), sequential semantics.

- line 14: unregistered key throws;
- lines 18-24 (singleton): `has` hit returns `get` (the cached instance);
  `has` miss awaits the factory, `set`s the result, returns `get` — after
  `set(key, v)`, `get(key)` is `v` (the Map law `mapGet_mapSet_self` below);
- lines 26-28 (transient): fresh factory call, never cached;
- lines 30-35 (scoped): a missing (falsy) context throws, otherwise a fresh
  factory call with no caching at this level. -/
def resolveC {V E : Type} (st : CState V E) (key : String)
    (context : Option RequestContext) :
    Except (ResolveError E) V × CState V E :=
  match mapGet st.services key with
  | none => (.error (.serviceNotRegistered key), st)
  | some d =>
    match d.lifecycle with
    | .singleton =>
      match mapGet st.singletons key with
      | some v => (.ok v, st)
      | none =>
        match runFactory st d key with
        | (.error e, st') => (.error (.factoryError e), st')
        | (.ok v, st') =>
          (.ok v, { st' with singletons := mapSet st'.singletons key v })
    | .transient =>
      match runFactory st d key with
      | (.error e, st') => (.error (.factoryError e), st')
      | (.ok v, st') => (.ok v, st')
    | .scoped =>
      match context with
      | none => (.error (.scopedRequiresContext key), st)
      | some _ =>
        match runFactory st d key with
        | (.error e, st') => (.error (.factoryError e), st')
        | (.ok v, st') => (.ok v, st')

theorem find?_replace {α : Type} (m : List (String × α)) (k : String) (v : α)
    (h : m.any (fun p => p.1 = k) = true) :
    (m.map (fun p => if p.1 = k then (k, v) else p)).find? (fun p => p.1 = k)
      = some (k, v) := by
  induction m with
  | nil => simp at h
  | cons p rest ih =>
    by_cases hp : p.1 = k
    · simp only [List.map_cons, if_pos hp]
      exact List.find?_cons_of_pos _ (by simp)
    · have h2 : rest.any (fun p => p.1 = k) = true := by
        simpa [List.any_cons, hp] using h
      simp only [List.map_cons, if_neg hp]
      rw [List.find?_cons_of_neg _ (by simp [hp])]
      exact ih h2

theorem find?_append_fresh {α : Type} (m : List (String × α)) (k : String)
    (v : α) (h : m.any (fun p => p.1 = k) = false) :
    (m ++ [(k, v)]).find? (fun p => p.1 = k) = some (k, v) := by
  induction m with
  | nil =>
    simp only [List.nil_append]
    exact List.find?_cons_of_pos _ (by simp)
  | cons p rest ih =>
    simp only [List.any_cons, Bool.or_eq_false_iff] at h
    rw [List.cons_append, List.find?_cons_of_neg _ (by rw [h.1]; simp)]
    exact ih h.2

/-- The Map law justifying returning the just-set instance for the
singleton `set`-then-`get` of container.ts lines 21-23. -/
theorem mapGet_mapSet_self {α : Type} (m : List (String × α)) (k : String)
    (v : α) : mapGet (mapSet m k v) k = some v := by
  unfold mapGet mapSet
  cases hb : m.any (fun p => p.1 = k) with
  | true =>
    rw [if_pos rfl, find?_replace m k v hb]
    rfl
  | false =>
    rw [if_neg (by simp), find?_append_fresh m k v hb]
    rfl

/-- The state owned by a `ScopedContainerImpl` (container.ts lines 43-51):
the scoped-instance cache, the disposed flag, and the `RequestContext` the
scope was created with.  The parent `Container` state is passed explicitly
to each operation. -/
structure SState (V : Type) where
  scopedInstances : List (String × V)
  disposed : Bool
  context : RequestContext
deriving DecidableEq, Repr

/-- Scope creation, `Container.createScope(context)` (container.ts lines 38-40): a fresh
scope bound to `context`, with an empty cache and the flag down. -/
def createScope (V : Type) (ctx : RequestContext) : SState V :=
  { scopedInstances := [], disposed := false, context := ctx }

/-- Scoped resolution, `ScopedContainerImpl.resolve` (container.ts lines 53-77).

- lines 54-56: a disposed scope throws `ContainerDisposed` before anything
  else, for every key;
- lines 58-61: unregistered key throws;
- lines 63-65 (singleton): delegate to the parent's `resolve(key, context)`;
  the scope's own cache is untouched;
- lines 67-73 (scoped): cache hit returns the cached instance, cache miss
  awaits the factory, `set`s it, returns it (`get` after `set`, as in
  `mapGet_mapSet_self`);
- line 76 (transient): fresh factory call, never cached. -/
def resolveS {V E : Type} (cst : CState V E) (sst : SState V) (key : String) :
    Except (ResolveError E) V × CState V E × SState V :=
  if sst.disposed then (.error .containerDisposed, cst, sst)
  else
    match mapGet cst.services key with
    | none => (.error (.serviceNotRegistered key), cst, sst)
    | some d =>
      match d.lifecycle with
      | .singleton =>
        match resolveC cst key (some sst.context) with
        | (r, cst') => (r, cst', sst)
      | .scoped =>
        match mapGet sst.scopedInstances key with
        | some v => (.ok v, cst, sst)
        | none =>
          match runFactory cst d key with
          | (.error e, cst') => (.error (.factoryError e), cst', sst)
          | (.ok v, cst') =>
            (.ok v, cst',
              { sst with scopedInstances := mapSet sst.scopedInstances key v })
      | .transient =>
        match runFactory cst d key with
        | (.error e, cst') => (.error (.factoryError e), cst', sst)
        | (.ok v, cst') => (.ok v, cst', sst)

/-- The `for (const [_key, instance] of this.scopedInstances)` loop of
`dispose` (container.ts lines 83-87), instrumented with the list of
instances whose `dispose` method was invoked (in invocation order).

`hasD v` models the duck-type check
`instance && typeof instance.dispose === 'function'` (line 84);
`dispF v` models the outcome of `await instance.dispose()` (line 85).
A rejection exits the whole `dispose` call with that error, so the loop
stops at the first failing instance. -/
def disposeLoop {V E : Type} (hasD : V → Bool) (dispF : V → Except E Unit) :
    List (String × V) → Except E Unit × List V
  | [] => (.ok (), [])
  | (_, v) :: rest =>
    if hasD v then
      match dispF v with
      | .error e => (.error e, [v])
      | .ok _ =>
        match disposeLoop hasD dispF rest with
        | (r, tr) => (r, v :: tr)
    else
      disposeLoop hasD dispF rest

/-- Disposal, `ScopedContainerImpl.dispose` (container.ts lines 79-91).

- line 80: a second call returns immediately;
- lines 83-87: dispose each cached instance in insertion order; a rejection
  of one instance's `dispose` propagates out of the whole call, leaving the
  cache (line 89) and the flag (line 90) untouched;
- lines 89-90: on success the cache is cleared and the flag set.

Returns (outcome, new scope state, instances whose `dispose` was invoked). -/
def disposeS {V E : Type} (hasD : V → Bool) (dispF : V → Except E Unit)
    (sst : SState V) : Except E Unit × SState V × List V :=
  if sst.disposed then (.ok (), sst, [])
  else
    match disposeLoop hasD dispF sst.scopedInstances with
    | (.error e, tr) => (.error e, sst, tr)
    | (.ok _, tr) =>
      (.ok (), { sst with scopedInstances := [], disposed := true }, tr)

/-!
Event-loop interleaving of two concurrent `Container.resolve` calls for one
singleton key (container.ts lines 18-24), starting from an empty singleton
cache.  Each call runs synchronously from the `has` check (line 19) through
the synchronous invocation of `definition.factory()` (line 20), suspends at
the `await`, and on resumption executes `set` (line 21) and `return get`
(line 23) synchronously.  So each task has exactly one suspension point and
two atomic segments:

- segment 1 (`Phase.start`): if the cache has a value, finish with it
  (lines 19/23 on a hit, no suspension); otherwise invoke the factory —
  the model allocates a fresh instance, numbered by the running invocation
  count — and suspend (`Phase.pending`);
- segment 2 (`Phase.pending v`): `set(key, v)` then `return get(key) = v`.

`calls` counts factory invocations; instances are their allocation numbers,
so distinct numbers model distinct object references (a factory of the form
`async () => new Thing()`). -/

/-- Where one task of the race stands. -/
inductive Phase where
  | start
  | pending (v : Nat)
  | done (v : Nat)
deriving DecidableEq, Repr

/-- Joint state of the singleton cache, the factory-invocation counter and
the two racing `resolve` calls. -/
structure RaceState where
  cache : Option Nat
  calls : Nat
  a : Phase
  b : Phase
deriving DecidableEq, Repr

/-- Run one task's next atomic segment against the shared cache. -/
def stepTask (cache : Option Nat) (calls : Nat) :
    Phase → Option Nat × Nat × Phase
  | .start =>
    match cache with
    | some v => (cache, calls, .done v)
    | none => (cache, calls + 1, .pending calls)
  | .pending v => (some v, calls, .done v)
  | .done v => (cache, calls, .done v)

/-- Schedule one step: `true` runs task A's next segment, `false` task B's. -/
def raceStep (s : RaceState) (who : Bool) : RaceState :=
  if who then
    match stepTask s.cache s.calls s.a with
    | (c, n, ph) => { cache := c, calls := n, a := ph, b := s.b }
  else
    match stepTask s.cache s.calls s.b with
    | (c, n, ph) => { cache := c, calls := n, a := s.a, b := ph }

/-- Run a schedule (a list of task choices) from a state. -/
def raceRun (s : RaceState) (sched : List Bool) : RaceState :=
  sched.foldl raceStep s

/-- Both `resolve` calls posted, neither started, cache empty. -/
def raceInit : RaceState :=
  { cache := none, calls := 0, a := .start, b := .start }

/-!
The `depend` / `Injectable` utility (types.ts lines 1-15).

A dependency record (`T extends Record<string, unknown>`) is modelled as a
string-keyed partial map `String → Option α`; `Partial<T>` has the same
shape.  The object spread `{...dependencies, ...deps}` of lines 12-13 is
`spreadMerge`: the override's binding wins where present.  An `Injectable`
is the pair of its captured dependency record and the callback; invoking it
(`Injectable.call`) returns the callback's result together with the list of
(dependency record, arguments) pairs passed to the callback — the body
`(...args) => cb(dependencies, ...args)` (line 9) performs exactly one such
call.  `inject` (lines 10-13) takes either a partial record or a function
of the current record, and builds a NEW `Injectable` over the spread-merged
record, leaving the receiver untouched.
-/

/-- A string-keyed (partial) dependency record. -/
def DepRec (α : Type) := String → Option α

/-- Object spread `{...base, ...ov}`: `ov`'s binding wins where present. -/
def spreadMerge {α : Type} (base ov : DepRec α) : DepRec α :=
  fun k =>
    match ov k with
    | some v => some v
    | none => base k

/-- The `Injectable<T, U, V>` shape (types.ts lines 1-4): a callable carrying its
dependency record. -/
structure Injectable (α U V : Type) where
  deps : DepRec α
  cb : DepRec α → U → V

/-- The `depend(dependencies, cb)` constructor (types.ts lines 5-15). -/
def depend {α U V : Type} (dependencies : DepRec α)
    (cb : DepRec α → U → V) : Injectable α U V :=
  { deps := dependencies, cb := cb }

/-- Invoking the callable (types.ts line 9): the result of
`cb(dependencies, ...args)`, together with the calls made to `cb`. -/
def Injectable.call {α U V : Type} (f : Injectable α U V) (args : U) :
    V × List (DepRec α × U) :=
  (f.cb f.deps args, [(f.deps, args)])

/-- Override derivation, `fn.inject` (types.ts lines 10-13): a partial record (`Sum.inl`) or a
function of the current record (`Sum.inr`); both build a new `Injectable`
over the spread-merged record via `depend`. -/
def Injectable.inject {α U V : Type} (f : Injectable α U V)
    (ov : DepRec α ⊕ (DepRec α → DepRec α)) : Injectable α U V :=
  match ov with
  | .inl m => depend (spreadMerge f.deps m) f.cb
  | .inr g => depend (spreadMerge f.deps (g f.deps)) f.cb

/-! Helper lemmas shared by the claim theorems. -/

theorem countOf_bumpCalls (m : List (String × Nat)) (k : String) :
    countOf (bumpCalls m k) k = countOf m k + 1 := by
  unfold countOf bumpCalls
  rw [mapGet_mapSet_self]
  rfl

/-- A successfully completed `dispose()` leaves the flag up. -/
theorem disposeS_ok_disposed {V E : Type} (hasD : V → Bool)
    (dispF : V → Except E Unit) (sst sst' : SState V) (u : Unit) (tr : List V)
    (h : disposeS hasD dispF sst = (.ok u, sst', tr)) :
    sst'.disposed = true := by
  unfold disposeS at h
  by_cases hd : sst.disposed
  · rw [if_pos hd] at h
    injection h with h1 h2
    injection h2 with h2 h3
    rw [← h2]
    exact hd
  · rw [if_neg hd] at h
    rcases hl : disposeLoop hasD dispF sst.scopedInstances with ⟨r, tr'⟩
    rw [hl] at h
    cases r with
    | error e => simp at h
    | ok w =>
      injection h with h1 h2
      injection h2 with h2 h3
      rw [← h2]

/-- A successful pass over the cache attempts exactly the disposable
instances, in cache order. -/
theorem disposeLoop_ok_trace {V E : Type} (hasD : V → Bool)
    (dispF : V → Except E Unit) (l : List (String × V)) (u : Unit)
    (tr : List V) (h : disposeLoop hasD dispF l = (.ok u, tr)) :
    tr = (l.map (fun p => p.2)).filter hasD := by
  induction l generalizing tr with
  | nil =>
    unfold disposeLoop at h
    injection h with h1 h2
    simp [← h2]
  | cons p rest ih =>
    unfold disposeLoop at h
    by_cases hd : hasD p.2
    · rw [if_pos hd] at h
      rcases hf : dispF p.2 with e | w
      · rw [hf] at h
        simp at h
      · rw [hf] at h
        rcases hl : disposeLoop hasD dispF rest with ⟨r, tr'⟩
        rw [hl] at h
        injection h with h1 h2
        rw [List.map_cons, List.filter_cons, if_pos hd, ← h2]
        cases r with
        | error e => exact absurd h1.symm (by simp)
        | ok w => rw [ih tr' (by rw [hl])]
    · rw [if_neg hd] at h
      rw [List.map_cons, List.filter_cons, if_neg hd]
      exact ih tr h

/-- A pass over a cache whose entries before `(k, a)` all dispose cleanly,
where `a` is disposable and its disposal fails with `e`: the loop stops at
`a` with error `e`, having attempted exactly the disposable prefix and `a`. -/
theorem disposeLoop_error {V E : Type} (hasD : V → Bool)
    (dispF : V → Except E Unit) (post : List (String × V)) (k : String)
    (a : V) (e : E) (hda : hasD a = true) (hfail : dispF a = Except.error e) :
    ∀ pre : List (String × V),
      (∀ p ∈ pre, hasD p.2 = true → dispF p.2 = Except.ok ()) →
      disposeLoop hasD dispF (pre ++ (k, a) :: post)
        = (.error e, (pre.map (fun p => p.2)).filter hasD ++ [a]) := by
  intro pre
  induction pre with
  | nil =>
    intro _
    simp only [List.nil_append, List.map_nil, List.filter_nil]
    unfold disposeLoop
    rw [if_pos hda, hfail]
  | cons p rest ih =>
    intro hpre
    rw [List.cons_append]
    unfold disposeLoop
    by_cases hd : hasD p.2
    · rw [if_pos hd, hpre p (by simp) hd,
        ih (fun q hq => hpre q (by simp [hq]))]
      simp [List.filter_cons, hd]
    · rw [if_neg hd, ih (fun q hq => hpre q (by simp [hq]))]
      simp [List.filter_cons, hd]

theorem raceStep_calls_le (s : RaceState) (w : Bool) :
    s.calls ≤ (raceStep s w).calls := by
  unfold raceStep stepTask
  cases w <;> simp only [if_pos, if_neg] <;>
    rcases s with ⟨c, n, pa, pb⟩
  · cases pb with
    | start => cases c <;> simp
    | pending v => simp
    | done v => simp
  · cases pa with
    | start => cases c <;> simp
    | pending v => simp
    | done v => simp

theorem raceRun_calls_le (sched : List Bool) :
    ∀ s : RaceState, s.calls ≤ (raceRun s sched).calls := by
  induction sched with
  | nil => intro s; exact Nat.le_refl _
  | cons w rest ih =>
    intro s
    exact Nat.le_trans (raceStep_calls_le s w) (ih (raceStep s w))

/-- Container-level resolution never inspects the contents of a supplied
context: only its presence is tested (container.ts line 31). -/
theorem resolveC_ctx_irrelevant {V E : Type} (st : CState V E) (key : String)
    (c₁ c₂ : RequestContext) :
    resolveC st key (some c₁) = resolveC st key (some c₂) := by
  unfold resolveC
  cases mapGet st.services key with
  | none => rfl
  | some d => cases d.lifecycle <;> rfl

/-- Everything a caller can observe of a scoped resolution apart from the
scope's stored context: the outcome, the parent container state, and the
scope's cache and disposed flag. -/
def scopeObs {V E : Type}
    (out : Except (ResolveError E) V × CState V E × SState V) :
    Except (ResolveError E) V × CState V E × List (String × V) × Bool :=
  (out.1, out.2.1, out.2.2.scopedInstances, out.2.2.disposed)

/-- C9: `depend(deps, cb)` yields a callable that invokes `cb` exactly once
per invocation, with exactly the captured dependency record; `inject` with a
partial record (or a function returning one) yields a NEW callable over the
shallow-merged record, and the original callable (and its record) is
unchanged — only new objects are produced. -/
theorem C9_depend_inject {α U V : Type} (dependencies : DepRec α)
    (cb : DepRec α → U → V) (ov : DepRec α) (g : DepRec α → DepRec α)
    (args : U) :
    (depend dependencies cb).call args
      = (cb dependencies args, [(dependencies, args)]) ∧
    ((depend dependencies cb).inject (Sum.inl ov)).call args
      = (cb (spreadMerge dependencies ov) args,
         [(spreadMerge dependencies ov, args)]) ∧
    ((depend dependencies cb).inject (Sum.inr g)).call args
      = (cb (spreadMerge dependencies (g dependencies)) args,
         [(spreadMerge dependencies (g dependencies), args)]) ∧
    ((depend dependencies cb).inject (Sum.inl ov)).deps
      = spreadMerge dependencies ov ∧
    (depend dependencies cb).deps = dependencies :=
  ⟨rfl, rfl, rfl, rfl, rfl⟩

/-- C10: resolution outcomes never depend on the CONTENTS of a request
context.  Container-level `resolve` with two different contexts is
identical, and two scopes that differ only in their stored context agree on
everything observable (outcome, parent state, cache, flag). -/
theorem C10_context_noninterference {V E : Type} (st cst : CState V E)
    (sst₁ sst₂ : SState V) (key : String) (c₁ c₂ : RequestContext)
    (hcache : sst₁.scopedInstances = sst₂.scopedInstances)
    (hdisp : sst₁.disposed = sst₂.disposed) :
    resolveC st key (some c₁) = resolveC st key (some c₂) ∧
    scopeObs (resolveS cst sst₁ key) = scopeObs (resolveS cst sst₂ key) := by
  refine ⟨resolveC_ctx_irrelevant st key c₁ c₂, ?_⟩
  rcases sst₁ with ⟨ca₁, d₁, cx₁⟩
  rcases sst₂ with ⟨ca₂, d₂, cx₂⟩
  dsimp at hcache hdisp
  subst hcache
  subst hdisp
  unfold resolveS
  cases d₁ with
  | true => rfl
  | false =>
    simp only [if_neg Bool.false_ne_true]
    cases hs : mapGet cst.services key with
    | none => rfl
    | some d =>
      rcases d with ⟨fac, lc⟩
      cases lc
      next =>
        dsimp only
        rw [resolveC_ctx_irrelevant cst key cx₂ cx₁]
        cases hr : resolveC cst key (some cx₁) with
        | mk r cst2 => rfl
      next =>
        dsimp only
        cases hc : mapGet ca₁ key with
        | some v => rfl
        | none =>
          cases hrf : runFactory cst ⟨fac, Lifecycle.scoped⟩ key with
          | mk r cst2 => cases r <;> rfl
      next =>
        dsimp only
        cases hrf : runFactory cst ⟨fac, Lifecycle.transient⟩ key with
        | mk r cst2 => cases r <;> rfl

/-- Closed instance of C10 at two concrete contexts. -/
theorem C10_witness :
    scopeObs (resolveS (emptyContainer Nat String)
        (createScope Nat ⟨"req-1", 0, [("user", "alice")]⟩) "k")
      = scopeObs (resolveS (emptyContainer Nat String)
        (createScope Nat ⟨"req-2", 99, []⟩) "k") :=
  (@C10_context_noninterference Nat String (emptyContainer Nat String)
    (emptyContainer Nat String)
    (createScope Nat ⟨"req-1", 0, [("user", "alice")]⟩)
    (createScope Nat ⟨"req-2", 99, []⟩) "k"
    ⟨"a", 0, []⟩ ⟨"b", 1, []⟩ rfl rfl).2

/-- C7: container-level `resolve` of a scoped key without a context always
fails with `ScopedServiceRequiresContext` and never returns a value (the
state is untouched); with a context supplied, every call invokes the
factory afresh — there is no per-context caching at the Container level. -/
theorem C7_scoped_requires_context {V E : Type} (st : CState V E)
    (key : String) (d : ServiceDefinition V E)
    (hreg : mapGet st.services key = some d)
    (hlc : d.lifecycle = Lifecycle.scoped) :
    resolveC st key none = (.error (.scopedRequiresContext key), st) ∧
    ∀ c : RequestContext,
      resolveC st key (some c) =
        ((match d.factory (countOf st.calls key) with
          | .ok v => .ok v
          | .error e => .error (.factoryError e)),
         { st with calls := bumpCalls st.calls key }) := by
  constructor
  · simp only [resolveC, hreg, hlc]
  · intro c
    simp only [resolveC, hreg, hlc, runFactory]
    rcases hf : d.factory (countOf st.calls key) with e | v <;> simp only [hf]

/-- Closed instance of C7: the missing-context failure at a concrete
registry. -/
theorem C7_witness :
    resolveC (register (emptyContainer Nat String) "s"
        ⟨fun n => Except.ok n, Lifecycle.scoped⟩) "s" none
      = (Except.error (ResolveError.scopedRequiresContext "s"),
         register (emptyContainer Nat String) "s"
           ⟨fun n => Except.ok n, Lifecycle.scoped⟩) :=
  (@C7_scoped_requires_context Nat String
    (register (emptyContainer Nat String) "s"
      ⟨fun n => Except.ok n, Lifecycle.scoped⟩)
    "s" ⟨fun n => Except.ok n, Lifecycle.scoped⟩ rfl rfl).1

/-- C6: once `dispose()` has completed on a scope, the flag is up, every
subsequent `resolve` on that scope fails with `ContainerDisposed` — for
every key, registered or not, with the parent and scope states untouched —
and a further `dispose()` keeps the state unchanged: the Disposed state is
terminal. -/
theorem C6_disposed_terminal {V E : Type} (hasD : V → Bool)
    (dispF : V → Except E Unit) (sst sst' : SState V) (u : Unit)
    (tr : List V) (h : disposeS hasD dispF sst = (.ok u, sst', tr)) :
    sst'.disposed = true ∧
    (∀ (cst : CState V E) (key : String),
      resolveS cst sst' key = (.error .containerDisposed, cst, sst')) ∧
    disposeS hasD dispF sst' = (.ok (), sst', []) := by
  have hd := disposeS_ok_disposed hasD dispF sst sst' u tr h
  refine ⟨hd, ?_, ?_⟩
  · intro cst key
    unfold resolveS
    rw [if_pos hd]
  · unfold disposeS
    rw [if_pos hd]

/-- Closed instance of C6: resolving on a disposed scope fails even though
nothing is registered under the key. -/
theorem C6_witness :
    resolveS (emptyContainer Nat String)
        (⟨[], true, ⟨"r", 0, []⟩⟩ : SState Nat) "k"
      = (Except.error ResolveError.containerDisposed,
         emptyContainer Nat String, (⟨[], true, ⟨"r", 0, []⟩⟩ : SState Nat)) :=
  (@C6_disposed_terminal Nat String (fun _ => true)
    (fun _ => Except.ok ()) ⟨[("a", 3)], false, ⟨"r", 0, []⟩⟩
    ⟨[], true, ⟨"r", 0, []⟩⟩ () [3] rfl).2.1 (emptyContainer Nat String) "k"

/-- C5: dispose is idempotent.  After a `dispose()` call that completed
successfully, a second call returns successfully, changes nothing and
invokes no instance's disposal routine; the first call (from an undisposed
scope) attempted each disposable cached instance exactly once, so across
both calls each routine ran once, not twice. -/
theorem C5_dispose_idempotent {V E : Type} (hasD : V → Bool)
    (dispF : V → Except E Unit) (sst sst' : SState V) (u : Unit)
    (tr : List V) (h : disposeS hasD dispF sst = (.ok u, sst', tr)) :
    disposeS hasD dispF sst' = (.ok (), sst', []) ∧
    (sst.disposed = false →
      tr = (sst.scopedInstances.map (fun p => p.2)).filter hasD) := by
  have hd := disposeS_ok_disposed hasD dispF sst sst' u tr h
  constructor
  · unfold disposeS
    rw [if_pos hd]
  · intro hnd
    unfold disposeS at h
    rw [if_neg (by rw [hnd]; simp)] at h
    rcases hl : disposeLoop hasD dispF sst.scopedInstances with ⟨r, tr'⟩
    rw [hl] at h
    cases r with
    | error e => simp at h
    | ok w =>
      injection h with h1 h2
      injection h2 with h2 h3
      rw [← h3]
      exact disposeLoop_ok_trace hasD dispF sst.scopedInstances w tr' hl

/-- Closed instance of C5: the second dispose is a no-op and the first
call's trace lists the disposable cached instances once each. -/
theorem C5_witness :
    disposeS (fun _ => true) (fun _ => (Except.ok () : Except String Unit))
        (⟨[], true, ⟨"r", 0, []⟩⟩ : SState Nat)
      = (Except.ok (), (⟨[], true, ⟨"r", 0, []⟩⟩ : SState Nat), []) ∧
    ([3] : List Nat)
      = (([("a", 3)] : List (String × Nat)).map (fun p => p.2)).filter
          (fun _ => true) := by
  have h := @C5_dispose_idempotent Nat String (fun _ => true)
    (fun _ => (Except.ok () : Except String Unit))
    ⟨[("a", 3)], false, ⟨"r", 0, []⟩⟩ ⟨[], true, ⟨"r", 0, []⟩⟩ () [3] rfl
  exact ⟨h.1, h.2 rfl⟩

/-- C4: for a key registered as singleton, the first `resolve` (any
context, or none) invokes the factory once and caches the instance; any
`resolve` finding the cache full returns the cached instance unchanged
without touching the factory — so sequential calls run the factory exactly
once and always return the same instance.  A scope's `resolve` of the key
delegates to the parent container's `resolve(key, context)` and leaves the
scope's own cache untouched. -/
theorem C4_singleton_cached {V E : Type} (st cst : CState V E)
    (sst : SState V) (key : String) (d : ServiceDefinition V E) (v : V)
    (hreg : mapGet st.services key = some d)
    (hlc : d.lifecycle = Lifecycle.singleton) :
    (mapGet st.singletons key = none →
      d.factory (countOf st.calls key) = .ok v →
      ∀ ctx : Option RequestContext,
        resolveC st key ctx
          = (.ok v, { st with singletons := mapSet st.singletons key v,
                              calls := bumpCalls st.calls key })) ∧
    (mapGet st.singletons key = some v →
      ∀ ctx : Option RequestContext, resolveC st key ctx = (.ok v, st)) ∧
    (mapGet cst.services key = some d → sst.disposed = false →
      resolveS cst sst key
        = ((resolveC cst key (some sst.context)).1,
           (resolveC cst key (some sst.context)).2, sst)) := by
  refine ⟨?_, ?_, ?_⟩
  · intro hmiss hf ctx
    simp only [resolveC, hreg, hlc, hmiss, runFactory, hf]
  · intro hhit ctx
    simp only [resolveC, hreg, hlc, hhit]
  · intro hreg2 hnd
    unfold resolveS
    rw [if_neg (by rw [hnd]; simp)]
    simp only [hreg2, hlc]

/-- Closed instance of C4: first resolution of a fresh singleton key
invokes the factory and caches the instance (the call counter reads 1). -/
theorem C4_witness :
    resolveC (register (emptyContainer Nat String) "db"
        ⟨fun _ => Except.ok 7, Lifecycle.singleton⟩) "db" none
      = (Except.ok 7,
         (⟨[("db", ⟨fun _ => Except.ok 7, Lifecycle.singleton⟩)],
           [("db", 7)], [("db", 1)]⟩ : CState Nat String)) := by
  have h := @C4_singleton_cached Nat String
    (register (emptyContainer Nat String) "db"
      ⟨fun _ => Except.ok 7, Lifecycle.singleton⟩)
    (emptyContainer Nat String) (createScope Nat ⟨"r", 0, []⟩) "db"
    ⟨fun _ => Except.ok 7, Lifecycle.singleton⟩ 7 rfl rfl
  rw [h.1 rfl rfl none]
  rfl

/-- C3: for a key registered as scoped, resolved from a fresh-object
factory (distinct invocations yield distinct instances): the first
`resolve` in a scope invokes the factory and caches the instance; the
second `resolve` in the same scope returns the very same instance with no
further factory invocation (at most once per scope per key); a freshly
created second scope's `resolve` invokes the factory again and returns an
instance distinct from the first scope's. -/
theorem C3_scoped_per_scope {V E : Type} (cst : CState V E)
    (sstA : SState V) (key : String) (d : ServiceDefinition V E)
    (v₀ v₁ : V) (ctxB : RequestContext)
    (hreg : mapGet cst.services key = some d)
    (hlc : d.lifecycle = Lifecycle.scoped)
    (hfresh : ∀ i j : Nat, ∀ a b : V, i ≠ j →
      d.factory i = .ok a → d.factory j = .ok b → a ≠ b)
    (hnd : sstA.disposed = false)
    (hmiss : mapGet sstA.scopedInstances key = none)
    (hf0 : d.factory (countOf cst.calls key) = .ok v₀)
    (hf1 : d.factory (countOf cst.calls key + 1) = .ok v₁) :
    resolveS cst sstA key
      = (.ok v₀, { cst with calls := bumpCalls cst.calls key },
         { sstA with
             scopedInstances := mapSet sstA.scopedInstances key v₀ }) ∧
    resolveS { cst with calls := bumpCalls cst.calls key }
        { sstA with scopedInstances := mapSet sstA.scopedInstances key v₀ }
        key
      = (.ok v₀, { cst with calls := bumpCalls cst.calls key },
         { sstA with
             scopedInstances := mapSet sstA.scopedInstances key v₀ }) ∧
    resolveS { cst with calls := bumpCalls cst.calls key }
        (createScope V ctxB) key
      = (.ok v₁,
         { cst with calls := bumpCalls (bumpCalls cst.calls key) key },
         (⟨mapSet [] key v₁, false, ctxB⟩ : SState V)) ∧
    v₀ ≠ v₁ := by
  refine ⟨?_, ?_, ?_, ?_⟩
  · unfold resolveS
    rw [if_neg (by rw [hnd]; simp)]
    simp only [hreg, hlc, hmiss, runFactory, hf0]
  · unfold resolveS
    rw [if_neg (by rw [hnd]; simp)]
    simp only [hreg, hlc, mapGet_mapSet_self]
  · unfold resolveS
    rw [if_neg (by simp [createScope])]
    simp only [hreg, hlc, runFactory, createScope]
    rw [show mapGet ([] : List (String × V)) key = none from rfl,
      countOf_bumpCalls, hf1]
  · exact hfresh (countOf cst.calls key) (countOf cst.calls key + 1) v₀ v₁
      (by omega) hf0 hf1

/-- Closed instance of C3: two scopes over the same registry; the first
scope caches instance 0, the second obtains the distinct instance 1. -/
theorem C3_witness :
    (resolveS (register (emptyContainer Nat String) "sc"
        ⟨fun n => Except.ok n, Lifecycle.scoped⟩)
        (createScope Nat ⟨"r1", 0, []⟩) "sc").1 = Except.ok 0 ∧
    (0 : Nat) ≠ 1 := by
  have h := @C3_scoped_per_scope Nat String
    (register (emptyContainer Nat String) "sc"
      ⟨fun n => Except.ok n, Lifecycle.scoped⟩)
    (createScope Nat ⟨"r1", 0, []⟩) "sc"
    ⟨fun n => Except.ok n, Lifecycle.scoped⟩ 0 1 ⟨"r2", 1, []⟩
    rfl rfl
    (by intro i j a b hij ha hb
        injection ha with h1
        injection hb with h2
        rw [← h1, ← h2]
        exact hij)
    rfl rfl rfl rfl
  refine ⟨?_, h.2.2.2⟩
  rw [h.1]

/-- C8: a factory failure during `resolve` propagates the original error
unmodified (carried intact inside `factoryError`), for every lifecycle, on
the Container and on a ScopedContainer; no instance is cached under the
key — the singleton and scoped caches are exactly as before, only the
invocation counter moved — so a subsequent `resolve` reaches the factory
again. -/
theorem C8_factory_error_propagates {V E : Type} (st : CState V E)
    (sst : SState V) (key : String) (d : ServiceDefinition V E) (e : E)
    (hreg : mapGet st.services key = some d)
    (hf : d.factory (countOf st.calls key) = .error e) :
    (d.lifecycle = Lifecycle.singleton → mapGet st.singletons key = none →
      ∀ ctx : Option RequestContext,
        resolveC st key ctx
          = (.error (.factoryError e),
             { st with calls := bumpCalls st.calls key })) ∧
    (d.lifecycle = Lifecycle.transient →
      ∀ ctx : Option RequestContext,
        resolveC st key ctx
          = (.error (.factoryError e),
             { st with calls := bumpCalls st.calls key })) ∧
    (d.lifecycle = Lifecycle.scoped →
      ∀ c : RequestContext,
        resolveC st key (some c)
          = (.error (.factoryError e),
             { st with calls := bumpCalls st.calls key })) ∧
    (d.lifecycle = Lifecycle.scoped → sst.disposed = false →
      mapGet sst.scopedInstances key = none →
      resolveS st sst key
        = (.error (.factoryError e),
           { st with calls := bumpCalls st.calls key }, sst)) ∧
    (d.lifecycle = Lifecycle.transient → sst.disposed = false →
      resolveS st sst key
        = (.error (.factoryError e),
           { st with calls := bumpCalls st.calls key }, sst)) := by
  refine ⟨?_, ?_, ?_, ?_, ?_⟩
  · intro hlc hmiss ctx
    simp only [resolveC, hreg, hlc, hmiss, runFactory, hf]
  · intro hlc ctx
    simp only [resolveC, hreg, hlc, runFactory, hf]
  · intro hlc c
    simp only [resolveC, hreg, hlc, runFactory, hf]
  · intro hlc hnd hmiss
    unfold resolveS
    rw [if_neg (by rw [hnd]; simp)]
    simp only [hreg, hlc, hmiss, runFactory, hf]
  · intro hlc hnd
    unfold resolveS
    rw [if_neg (by rw [hnd]; simp)]
    simp only [hreg, hlc, runFactory, hf]

/-- Closed instance of C8: a transient factory that always throws; the
caller sees the original error, the caches stay empty, and only the
invocation counter moved. -/
theorem C8_witness :
    resolveC (register (emptyContainer Nat String) "t"
        ⟨fun _ => Except.error "boom", Lifecycle.transient⟩) "t" none
      = (Except.error (ResolveError.factoryError "boom"),
         (⟨[("t", ⟨fun _ => Except.error "boom", Lifecycle.transient⟩)],
           [], [("t", 1)]⟩ : CState Nat String)) := by
  have h := @C8_factory_error_propagates Nat String
    (register (emptyContainer Nat String) "t"
      ⟨fun _ => Except.error "boom", Lifecycle.transient⟩)
    (createScope Nat ⟨"r", 0, []⟩) "t"
    ⟨fun _ => Except.error "boom", Lifecycle.transient⟩ "boom" rfl rfl
  rw [h.2.1 rfl none]
  rfl

/-- C1 counterexample: the dispose loop of container.ts lines 83-87 has no
try/catch, so the claim fails.  In a scope caching two disposable
instances where the first instance's `dispose` rejects, `dispose()`
propagates the rejection instead of completing: the second instance's
disposal routine is never invoked (the trace is `[0]`, not `[0, 1]`), the
cache is not cleared and the disposed flag is not set — the state is
returned exactly as it was. -/
theorem C1_counterexample :
    disposeS (fun _ => true)
        (fun v => if v = 0 then (Except.error "boom" : Except String Unit)
                  else Except.ok ())
        (⟨[("a", 0), ("b", 1)], false, ⟨"r", 0, []⟩⟩ : SState Nat)
      = (Except.error "boom",
         (⟨[("a", 0), ("b", 1)], false, ⟨"r", 0, []⟩⟩ : SState Nat),
         [0]) := by
  rfl

/-- C1 amended: if any cached instance's disposal routine throws, the
failure propagates out of `dispose()` (it does not complete successfully);
the disposable instances before the failing one are the only other
disposals attempted — every later instance is skipped — and the scope
state is returned unchanged: the cache is not cleared and the disposed
flag is not set. -/
theorem C1_amended_dispose_error {V E : Type} (hasD : V → Bool)
    (dispF : V → Except E Unit) (sst : SState V)
    (pre post : List (String × V)) (k : String) (a : V) (e : E)
    (hnd : sst.disposed = false)
    (hsplit : sst.scopedInstances = pre ++ (k, a) :: post)
    (hpre : ∀ p ∈ pre, hasD p.2 = true → dispF p.2 = Except.ok ())
    (hda : hasD a = true) (hfail : dispF a = Except.error e) :
    disposeS hasD dispF sst
      = (Except.error e, sst,
         (pre.map (fun p => p.2)).filter hasD ++ [a]) := by
  unfold disposeS
  rw [if_neg (by rw [hnd]; simp), hsplit,
    disposeLoop_error hasD dispF post k a e hda hfail pre hpre]

/-- Closed instance of the amended C1: the clean first instance is
attempted, the failing second instance aborts the call, the third is
skipped and the state survives untouched. -/
theorem C1_amended_witness :
    disposeS (fun _ => true)
        (fun v => if v = 0 then (Except.error "boom" : Except String Unit)
                  else Except.ok ())
        (⟨[("a", 5), ("b", 0), ("c", 7)], false, ⟨"r", 0, []⟩⟩ : SState Nat)
      = (Except.error "boom",
         (⟨[("a", 5), ("b", 0), ("c", 7)], false, ⟨"r", 0, []⟩⟩ : SState Nat),
         [5, 0]) := by
  have h := @C1_amended_dispose_error Nat String (fun _ => true)
    (fun v => if v = 0 then (Except.error "boom" : Except String Unit)
              else Except.ok ())
    ⟨[("a", 5), ("b", 0), ("c", 7)], false, ⟨"r", 0, []⟩⟩
    [("a", 5)] [("c", 7)] "b" 0 "boom" rfl rfl
    (by intro p hp hdd
        rw [List.mem_singleton] at hp
        rw [hp]
        rfl)
    rfl rfl
  rw [h]
  rfl

/-- C2 counterexample: the singleton path of container.ts lines 18-24
checks the cache and then awaits the factory without memoizing the
in-flight creation, so the claim fails.  In the schedule
`[A, B, A, B]` task B performs its cache check (its first step) while
task A is still awaiting its factory (A is `pending`), exactly the
claim's premise — yet the factory runs twice (`calls = 2`, not `1`) and
the two callers finish with DIFFERENT instances (`0` and `1`). -/
theorem C2_counterexample :
    (raceRun raceInit [true, false]).a = Phase.pending 0 ∧
    (raceRun raceInit [true, false]).b = Phase.pending 1 ∧
    raceRun raceInit [true, false, true, false]
      = { cache := some 1, calls := 2, a := Phase.done 0,
          b := Phase.done 1 } ∧
    (raceRun raceInit [true, false, true, false]).calls ≠ 1 ∧
    (raceRun raceInit [true, false, true, false]).a
      ≠ (raceRun raceInit [true, false, true, false]).b := by
  decide

/-- C2 amended: when the second `resolve` performs its cache check while
the first call's factory is still pending, both calls miss the cache, the
factory is invoked once per caller — at least twice however the race
continues — and the callers can observe distinct instances (the cache
keeps the later writer's).  The claimed at-most-once creation holds only
when the second call starts after the first has settled: then the factory
runs once and both callers observe the same instance. -/
theorem C2_amended_race :
    (raceRun raceInit [true, false, true, false]
      = { cache := some 1, calls := 2, a := Phase.done 0,
          b := Phase.done 1 }) ∧
    (raceRun raceInit [true, true, false]
      = { cache := some 0, calls := 1, a := Phase.done 0,
          b := Phase.done 0 }) ∧
    ∀ rest : List Bool,
      2 ≤ (raceRun raceInit ([true, false] ++ rest)).calls := by
  refine ⟨by decide, by decide, ?_⟩
  intro rest
  have h : raceRun raceInit ([true, false] ++ rest)
      = raceRun (raceRun raceInit [true, false]) rest := by
    unfold raceRun
    rw [List.foldl_append]
  rw [h]
  exact raceRun_calls_le rest (raceRun raceInit [true, false])

end FPDI
